import Mathlib

/-!
Verification of the follow-gated direct-messaging data model of the
Secure-Connect repository.

The backend is a Postgres database (Supabase) with four content tables
(follows, chats, messages, message_reactions) governed by unique
constraints, check constraints and row-level-security (RLS) policies; the
client is a set of React handlers issuing CRUD calls.  We embed the
database as lists of rows, each insert as a constraint-and-policy-checked
operation returning `Option DB` (none = the insert errored), and each
client handler as a function over this state, following the source:

* table schemas and RLS policies: the two SQL migrations;
* `initializeChat`, `subscribeToMessages`, `handleSendMessage`,
  `handleReaction`, `getReactionCounts`: the Chat page;
* `handleFollow`, `fetchFollowStatus`, and the Message-button gate: the
  Discover page;
* `handleAccept`, `handleReject`: the Requests page.

Identifiers (uuids) are modelled as naturals with their linear order,
standing in for the lexicographic order on canonical uuid strings used by
both the `user1_id < user2_id` check constraint and the client-side
`.sort()` of the pair.
-/

namespace SecureConnect

/-- Status column of the follows table:
`CHECK (status IN ('pending', 'accepted', 'rejected'))`. -/
inductive FollowStatus
  | pending
  | accepted
  | rejected
deriving DecidableEq, Repr

/-- One row of the follows table. -/
structure FollowRow where
  id : Nat
  follower_id : Nat
  following_id : Nat
  status : FollowStatus
deriving DecidableEq, Repr

/-- One row of the chats table. -/
structure ChatRow where
  id : Nat
  user1_id : Nat
  user2_id : Nat
deriving DecidableEq, Repr

/-- One row of the messages table (created_at is left implicit: the
claims below do not depend on timestamps). -/
structure MessageRow where
  id : Nat
  chat_id : Nat
  sender_id : Nat
  content : String
  media_url : Option String
deriving DecidableEq, Repr

/-- One row of the message_reactions table. -/
structure ReactionRow where
  id : Nat
  message_id : Nat
  user_id : Nat
  emoji : String
deriving DecidableEq, Repr

/-- A file picked in the chat input (only its name matters to the
claims; oversized files are rejected by handleFileSelect and never reach
the send path). -/
structure ChatFile where
  name : String
deriving DecidableEq, Repr

/-- The database state: the four content tables plus the chat-files
storage bucket, the latter abstracted to the list of (chat folder, file
name) uploads. -/
structure DB where
  follows : List FollowRow
  chats : List ChatRow
  messages : List MessageRow
  reactions : List ReactionRow
  storage : List (Nat × String)
deriving DecidableEq, Repr

def emptyDB : DB := ⟨[], [], [], [], []⟩

/-! ### Constraint-checked inserts

Each insert models one Postgres INSERT: it fails (returns none, which the
client receives as an error) when the RLS WITH CHECK policy or a table
constraint is violated, and otherwise appends the row.  `auth` is the
authenticated user (`auth.uid()`), none when unauthenticated. -/

/-- The INSERT gate for follows: RLS policy
"Users can create follow requests" WITH CHECK (auth.uid() = follower_id),
plus the UNIQUE(follower_id, following_id) constraint. -/
def followInsertOk (db : DB) (auth : Option Nat) (f : FollowRow) : Bool :=
  (match auth with
   | some u => f.follower_id == u
   | none => false) &&
  db.follows.all fun f0 =>
    !(f0.follower_id == f.follower_id && f0.following_id == f.following_id)

def insertFollow (db : DB) (auth : Option Nat) (f : FollowRow) : Option DB :=
  if followInsertOk db auth f then
    some { db with follows := db.follows ++ [f] }
  else
    none

/-- The INSERT gate for chats: RLS policy "Users can create chats"
WITH CHECK (auth.uid() = user1_id OR auth.uid() = user2_id), plus the
CHECK (user1_id < user2_id) and UNIQUE(user1_id, user2_id) constraints. -/
def chatInsertOk (db : DB) (auth : Option Nat) (c : ChatRow) : Bool :=
  (match auth with
   | some u => c.user1_id == u || c.user2_id == u
   | none => false) &&
  decide (c.user1_id < c.user2_id) &&
  db.chats.all fun c0 =>
    !(c0.user1_id == c.user1_id && c0.user2_id == c.user2_id)

def insertChat (db : DB) (auth : Option Nat) (c : ChatRow) : Option DB :=
  if chatInsertOk db auth c then
    some { db with chats := db.chats ++ [c] }
  else
    none

/-- The INSERT gate for messages: RLS policy
"Users can create messages in their chats" WITH CHECK
(auth.uid() = sender_id AND EXISTS (chat with chat_id whose user1_id or
user2_id is auth.uid())). -/
def messageInsertOk (db : DB) (auth : Option Nat) (m : MessageRow) : Bool :=
  match auth with
  | none => false
  | some u =>
      m.sender_id == u &&
      db.chats.any fun c =>
        c.id == m.chat_id && (c.user1_id == u || c.user2_id == u)

def insertMessage (db : DB) (auth : Option Nat) (m : MessageRow) : Option DB :=
  if messageInsertOk db auth m then
    some { db with messages := db.messages ++ [m] }
  else
    none

/-- Visibility of a message to a user for reaction purposes: the EXISTS
subquery of the reaction policies (message joined to a chat in which the
user participates). -/
def reactionTargetOk (db : DB) (u : Nat) (mId : Nat) : Bool :=
  db.messages.any fun m =>
    m.id == mId &&
    db.chats.any fun c =>
      c.id == m.chat_id && (c.user1_id == u || c.user2_id == u)

/-- The INSERT gate for message_reactions: RLS policy
"Users can add reactions to messages in their chats" WITH CHECK
(auth.uid() = user_id AND the target message is in one of the user's
chats), plus the UNIQUE (message_id, user_id, emoji) constraint. -/
def reactionInsertOk (db : DB) (auth : Option Nat) (r : ReactionRow) : Bool :=
  match auth with
  | none => false
  | some u =>
      r.user_id == u &&
      reactionTargetOk db u r.message_id &&
      db.reactions.all fun r0 =>
        !(r0.message_id == r.message_id && r0.user_id == r.user_id &&
          r0.emoji == r.emoji)

def insertReaction (db : DB) (auth : Option Nat) (r : ReactionRow) : Option DB :=
  if reactionInsertOk db auth r then
    some { db with reactions := db.reactions ++ [r] }
  else
    none

/-- DELETE on message_reactions filtered by id: RLS policy
"Users can delete their own reactions" USING (auth.uid() = user_id)
restricts the deletion to rows the authenticated user owns; deleting
zero rows is not an error. -/
def deleteReaction (db : DB) (auth : Option Nat) (rid : Nat) : DB :=
  match auth with
  | none => db
  | some u =>
      { db with reactions :=
          db.reactions.filter fun r => !(r.id == rid && r.user_id == u) }

/-! ### Client operations -/

/-- The bidirectional follow check of initializeChat: an accepted edge
with {follower, following} equal to {me, other} in either direction
(the `.or(...)` filter combined with `.eq(status, accepted)`). -/
def isConnected (db : DB) (me other : Nat) : Bool :=
  db.follows.any fun f =>
    f.status == FollowStatus.accepted &&
    ((f.follower_id == me && f.following_id == other) ||
     (f.follower_id == other && f.following_id == me))

/-- The client-side canonicalisation `[user?.id, userId].sort()`. -/
def sortedPair (a b : Nat) : Nat × Nat :=
  if a ≤ b then (a, b) else (b, a)

/-- The chat lookup shared by initializeChat and handleAccept: rows of
chats whose (user1_id, user2_id) equal the sorted pair.  The client asks
for `.single()`, which succeeds exactly when this list is a singleton. -/
def chatLookup (db : DB) (a b : Nat) : List ChatRow :=
  db.chats.filter fun c =>
    c.user1_id == (sortedPair a b).1 && c.user2_id == (sortedPair a b).2

/-- Outcome of initializeChat as observed by the user: connected-check
failure, a chat id, or the catch-all Failed-to-load-chat error toast. -/
inductive InitResult
  | notConnected
  | ok (chatId : Nat)
  | failed
deriving DecidableEq, Repr

/-- initializeChat with its read phase (connection check and chat
lookup, against `readDb`) separated from its write phase (the insert,
against `writeDb`), so that two concurrent invocations whose reads both
precede both writes can be expressed.  The sequential call is the case
readDb = writeDb.

Following the source: a singleton lookup result is reused; an empty
lookup (PGRST116 from `.single()`) leads to an insert of the sorted
pair; an insert error is thrown and caught by the surrounding catch
block, which surfaces the Failed-to-load-chat toast without re-reading. -/
def initializeChatAt (readDb writeDb : DB) (me other : Nat)
    (freshId : Nat) : InitResult × DB :=
  if !(isConnected readDb me other) then
    (InitResult.notConnected, writeDb)
  else
    match chatLookup readDb me other with
    | [c] => (InitResult.ok c.id, writeDb)
    | [] =>
        match insertChat writeDb (some me)
            ⟨freshId, (sortedPair me other).1, (sortedPair me other).2⟩ with
        | some db2 => (InitResult.ok freshId, db2)
        | none => (InitResult.failed, writeDb)
    | _ => (InitResult.failed, writeDb)

/-- The sequential initializeChat: read and write against the same
database state. -/
def initializeChat (db : DB) (me other : Nat) (freshId : Nat) :
    InitResult × DB :=
  initializeChatAt db db me other freshId

/-- Concurrent first contact from both sides: both clients run their
read phase against the same state `db`, then the writes land in order
(a's insert first, b's insert second).  Returns a's outcome, b's
outcome, and the final database. -/
def initRace (db : DB) (a b : Nat) (idA idB : Nat) :
    InitResult × InitResult × DB :=
  let ra := initializeChatAt db db a b idA
  let rb := initializeChatAt db ra.2 b a idB
  (ra.1, rb.1, rb.2)

/-- Outcome of handleFollow on the Discover page. -/
inductive FollowReqResult
  | ok
  | failed
deriving DecidableEq, Repr

/-- handleFollow: insert a (follower = auth, following = profileId)
edge with status pending; any insert error is surfaced as the
Failed-to-send-follow-request toast. -/
def handleFollow (db : DB) (auth : Nat) (profileId : Nat)
    (freshId : Nat) : FollowReqResult × DB :=
  match insertFollow db (some auth)
      ⟨freshId, auth, profileId, FollowStatus.pending⟩ with
  | some db2 => (FollowReqResult.ok, db2)
  | none => (FollowReqResult.failed, db)

/-- UPDATE of a follows row to a new status, filtered by id: RLS policy
"Users can update follow requests they received" USING
(auth.uid() = following_id) restricts the update to rows whose followee
is the authenticated user; rows not passing the filter are silently left
unchanged (updating zero rows is not an error). -/
def updateFollowStatus (db : DB) (auth : Nat) (requestId : Nat)
    (st : FollowStatus) : DB :=
  { db with follows :=
      db.follows.map fun f =>
        if f.id == requestId && f.following_id == auth then
          { f with status := st }
        else
          f }

/-- The system welcome message inserted by handleAccept. -/
def welcomeText : String :=
  "🎉 Your follow request has been accepted! You are now connected and can start chatting."

/-- Outcome of handleAccept on the Requests page. -/
inductive AcceptResult
  | ok (chatId : Nat)
  | failed
deriving DecidableEq, Repr

/-- The chat-and-welcome-message phase of handleAccept, run on the
state left by the status update: reuse the chat for the sorted
(auth, followerId) pair when the lookup yields one row, otherwise
insert it; then insert the system welcome message; any thrown error is
caught and surfaced as the Failed-to-accept-request toast. -/
def acceptChatPhase (db1 : DB) (auth : Nat) (followerId : Nat)
    (freshChat : Nat) (freshMsg : Nat) : AcceptResult × DB :=
  match chatLookup db1 auth followerId with
  | [c] =>
      match insertMessage db1 (some auth)
          ⟨freshMsg, c.id, auth, welcomeText, none⟩ with
      | some db2 => (AcceptResult.ok c.id, db2)
      | none => (AcceptResult.failed, db1)
  | _ =>
      match insertChat db1 (some auth)
          ⟨freshChat, (sortedPair auth followerId).1,
            (sortedPair auth followerId).2⟩ with
      | some db2 =>
          match insertMessage db2 (some auth)
              ⟨freshMsg, freshChat, auth, welcomeText, none⟩ with
          | some db3 => (AcceptResult.ok freshChat, db3)
          | none => (AcceptResult.failed, db2)
      | none => (AcceptResult.failed, db1)

/-- handleAccept: set the edge status to accepted (the RLS-filtered
update), then create or reuse the chat and insert the system welcome
message. -/
def handleAccept (db : DB) (auth : Nat) (requestId : Nat)
    (followerId : Nat) (freshChat : Nat) (freshMsg : Nat) :
    AcceptResult × DB :=
  acceptChatPhase (updateFollowStatus db auth requestId FollowStatus.accepted)
    auth followerId freshChat freshMsg

/-- handleReject: set the edge status to rejected (RLS-filtered
update). -/
def handleReject (db : DB) (auth : Nat) (requestId : Nat) : DB :=
  updateFollowStatus db auth requestId FollowStatus.rejected

/-- Outcome of handleSendMessage in the chat screen. -/
inductive SendResult
  | noop
  | sent
  | failed
deriving DecidableEq, Repr

/-- JavaScript String.prototype.trim (used as newMessage.trim() in the
send path), embedded as whitespace-stripping on the character list so
that it is executable. -/
def jsTrim (s : String) : String :=
  ⟨((s.data.dropWhile Char.isWhitespace).reverse.dropWhile
      Char.isWhitespace).reverse⟩

/-- The file-upload phase of handleSendMessage: when a file is
selected, upload it into the chat folder of the chat-files bucket
(paths abstracted to the file name) before the message insert. -/
def uploadPhase (db : DB) (cid : Nat) (selectedFile : Option ChatFile) : DB :=
  match selectedFile with
  | some f => { db with storage := db.storage ++ [(cid, f.name)] }
  | none => db

/-- The stored text of a sent message:
`newMessage.trim() || (selectedFile ? selectedFile.name : '')`. -/
def sendContent (newMessage : String) (selectedFile : Option ChatFile) : String :=
  if jsTrim newMessage == "" then
    match selectedFile with
    | some f => f.name
    | none => ""
  else
    jsTrim newMessage

/-- handleSendMessage: return without any network call when the trimmed
text is empty and no file is selected (or no chat id is loaded);
otherwise upload the selected file (if any), then insert the message
with the trimmed text or the file name as content and the media
reference; an insert error (including a null authenticated user, whose
id the insert cannot provide) is surfaced as the
Failed-to-send-message toast. -/
def handleSendMessage (db : DB) (user : Option Nat)
    (chatId : Option Nat) (newMessage : String)
    (selectedFile : Option ChatFile) (freshId : Nat) : SendResult × DB :=
  if (jsTrim newMessage == "" && selectedFile.isNone) || chatId.isNone then
    (SendResult.noop, db)
  else
    match chatId, user with
    | none, _ => (SendResult.noop, db)
    | some cid, none => (SendResult.failed, uploadPhase db cid selectedFile)
    | some cid, some u =>
        match insertMessage (uploadPhase db cid selectedFile) (some u)
            ⟨freshId, cid, u, sendContent newMessage selectedFile,
              selectedFile.map (fun f => f.name)⟩ with
        | some db2 => (SendResult.sent, db2)
        | none => (SendResult.failed, uploadPhase db cid selectedFile)

/-- The realtime INSERT handler of subscribeToMessages, applied to the
local ordered message view:
`setMessages((current) => [...current, payload.new])`. -/
def applyInsertEvent (current : List MessageRow) (m : MessageRow) :
    List MessageRow :=
  current ++ [m]

/-- The locally known reactions of one message (the
`reactions[messageId]` list maintained by loadReactions and the realtime
reaction feed; when in sync with the database it is the set of persisted
reaction rows of that message). -/
def reactionsFor (db : DB) (messageId : Nat) : List ReactionRow :=
  db.reactions.filter fun r => r.message_id == messageId

/-- Outcome of handleReaction in the chat screen. -/
inductive ReactResult
  | noUser
  | removed
  | added
  | addFailed
deriving DecidableEq, Repr

/-- handleReaction: look in the locally known reactions of the message
for a row of the current user with this emoji; delete it by id when
found, otherwise insert a new (message, user, emoji) row; an insert
error is surfaced as the Failed-to-add-reaction toast. -/
def handleReaction (db : DB) (localRs : List ReactionRow)
    (user : Option Nat) (messageId : Nat) (emoji : String)
    (freshId : Nat) : ReactResult × DB :=
  match user with
  | none => (ReactResult.noUser, db)
  | some u =>
      match localRs.find? (fun r => r.user_id == u && r.emoji == emoji) with
      | some existing =>
          (ReactResult.removed, deleteReaction db (some u) existing.id)
      | none =>
          match insertReaction db (some u) ⟨freshId, messageId, u, emoji⟩ with
          | some db2 => (ReactResult.added, db2)
          | none => (ReactResult.addFailed, db)

/-- One reaction row carries exactly the (message, user, emoji) triple
guarded by the UNIQUE (message_id, user_id, emoji) constraint. -/
def tripleMatch (mId : Nat) (u : Nat) (e : String) (r : ReactionRow) : Bool :=
  r.message_id == mId && r.user_id == u && r.emoji == e

/-- Whether a (message, user, emoji) reaction fact is present. -/
def hasReaction (db : DB) (mId : Nat) (u : Nat) (e : String) : Bool :=
  db.reactions.any (tripleMatch mId u e)

/-- The follow status shown on the Discover page for one target profile:
fetchFollowStatus loads the current user-s outgoing edges and writes
each row-s status into the map, so the entry for a target is the status
of the last outgoing row towards it, defaulting to none. -/
inductive UiStatus
  | newTarget
  | pending
  | accepted
  | rejected
deriving DecidableEq, Repr

def ofFollowStatus : FollowStatus → UiStatus
  | FollowStatus.pending => UiStatus.pending
  | FollowStatus.accepted => UiStatus.accepted
  | FollowStatus.rejected => UiStatus.rejected

def followStatusUI (db : DB) (me target : Nat) : UiStatus :=
  match (db.follows.filter fun f =>
      f.follower_id == me && f.following_id == target).getLast? with
  | some f => ofFollowStatus f.status
  | none => UiStatus.newTarget

/-- The Message-button gate on the Discover page:
`const canMessage = status === 'accepted'`. -/
def canMessage (db : DB) (me target : Nat) : Bool :=
  followStatusUI db me target == UiStatus.accepted

/-! ### Invariants -/

/-- A chat row stores exactly the ordered pair (a, b). -/
def pairMatch (a b : Nat) (c : ChatRow) : Bool :=
  c.user1_id == a && c.user2_id == b

/-- Canonical order: every stored chat row satisfies the
CHECK (user1_id < user2_id) constraint. -/
def chatsCanonical (db : DB) : Prop :=
  ∀ c ∈ db.chats, c.user1_id < c.user2_id

/-- Uniqueness: at most one chat row per ordered pair, as enforced by
UNIQUE(user1_id, user2_id). -/
def chatsUnique (db : DB) : Prop :=
  ∀ a b, db.chats.countP (pairMatch a b) ≤ 1

def chatsInvariant (db : DB) : Prop :=
  chatsCanonical db ∧ chatsUnique db

/-- All chat rows between the unordered pair {a, b}. -/
def chatsForPair (db : DB) (a b : Nat) : List ChatRow :=
  db.chats.filter fun c => pairMatch a b c || pairMatch b a c

/-- At most one reaction row per (message, user, emoji) triple, as
enforced by UNIQUE (message_id, user_id, emoji). -/
def reactionsUnique (db : DB) : Prop :=
  ∀ mId u e, db.reactions.countP (tripleMatch mId u e) ≤ 1

/-- At most one follow edge per ordered (follower, following) pair, as
enforced by UNIQUE(follower_id, following_id). -/
def followPairMatch (a b : Nat) (f : FollowRow) : Bool :=
  f.follower_id == a && f.following_id == b

def followsUnique (db : DB) : Prop :=
  ∀ a b, db.follows.countP (followPairMatch a b) ≤ 1

/-- Follow edge ids are primary keys: two stored rows with the same id
are the same row. -/
def followIdsUnique (db : DB) : Prop :=
  ∀ f1 ∈ db.follows, ∀ f2 ∈ db.follows, f1.id = f2.id → f1 = f2

/-! ### Helper lemmas -/

lemma insertChat_eq_some {db db' : DB} {auth : Option Nat} {c : ChatRow} :
    insertChat db auth c = some db' ↔
      chatInsertOk db auth c = true ∧ db' = { db with chats := db.chats ++ [c] } := by
  unfold insertChat
  split <;> rename_i hok <;> simp [hok, eq_comm]

lemma insertMessage_eq_some {db db' : DB} {auth : Option Nat} {m : MessageRow} :
    insertMessage db auth m = some db' ↔
      messageInsertOk db auth m = true ∧
        db' = { db with messages := db.messages ++ [m] } := by
  unfold insertMessage
  split <;> rename_i hok <;> simp [hok, eq_comm]

lemma insertReaction_eq_some {db db' : DB} {auth : Option Nat} {r : ReactionRow} :
    insertReaction db auth r = some db' ↔
      reactionInsertOk db auth r = true ∧
        db' = { db with reactions := db.reactions ++ [r] } := by
  unfold insertReaction
  split <;> rename_i hok <;> simp [hok, eq_comm]

lemma insertFollow_eq_some {db db' : DB} {auth : Option Nat} {f : FollowRow} :
    insertFollow db auth f = some db' ↔
      followInsertOk db auth f = true ∧
        db' = { db with follows := db.follows ++ [f] } := by
  unfold insertFollow
  split <;> rename_i hok <;> simp [hok, eq_comm]

/-- A successful chat insert preserves the canonical-order and
uniqueness invariant: the check constraint guards the order and the
unique constraint guards against a second row for the pair. -/
lemma insertChat_invariant {db db' : DB} {auth : Option Nat} {c : ChatRow}
    (hinv : chatsInvariant db) (h : insertChat db auth c = some db') :
    chatsInvariant db' := by
  obtain ⟨hok, rfl⟩ := insertChat_eq_some.mp h
  unfold chatInsertOk at hok
  simp only [Bool.and_eq_true, decide_eq_true_eq, List.all_eq_true] at hok
  obtain ⟨⟨_, hlt⟩, hall⟩ := hok
  constructor
  · intro x hx
    rcases List.mem_append.mp hx with hx | hx
    · exact hinv.1 x hx
    · simp only [List.mem_singleton] at hx
      subst hx
      exact hlt
  · intro a b
    rw [List.countP_append]
    by_cases hc : pairMatch a b c = true
    · have hab : a = c.user1_id ∧ b = c.user2_id := by
        unfold pairMatch at hc
        simp only [Bool.and_eq_true, beq_iff_eq] at hc
        exact ⟨hc.1.symm, hc.2.symm⟩
      obtain ⟨rfl, rfl⟩ := hab
      have hz : db.chats.countP (pairMatch c.user1_id c.user2_id) = 0 := by
        rw [List.countP_eq_zero]
        intro c0 hc0
        have h0 := hall c0 hc0
        unfold pairMatch
        simp only [Bool.not_eq_true'] at h0
        simp [h0]
      simp [hz, List.countP_singleton, hc]
    · have : ([c].countP (pairMatch a b)) = 0 := by
        simp [List.countP_singleton, hc]
      rw [this]
      simpa using hinv.2 a b

/-- Under the canonical-order and uniqueness invariant there is at most
one chat row per unordered pair: a row covering {a, b} can only store
the sorted orientation, and that orientation is unique. -/
lemma chatsForPair_length_le_one {db : DB} (hinv : chatsInvariant db)
    (a b : Nat) : (chatsForPair db a b).length ≤ 1 := by
  unfold chatsForPair
  rw [← List.countP_eq_length_filter]
  rcases Nat.lt_trichotomy a b with hab | hab | hab
  · calc db.chats.countP (fun c => pairMatch a b c || pairMatch b a c)
        = db.chats.countP (pairMatch a b) := by
          apply List.countP_congr
          intro c hc
          have hcan := hinv.1 c hc
          unfold pairMatch
          simp only [Bool.or_eq_true, Bool.and_eq_true, beq_iff_eq]
          constructor
          · rintro (h | ⟨rfl, rfl⟩)
            · exact h
            · omega
          · intro h
            exact Or.inl h
      _ ≤ 1 := hinv.2 a b
  · subst hab
    have : db.chats.countP (fun c => pairMatch a a c || pairMatch a a c) = 0 := by
      rw [List.countP_eq_zero]
      intro c hc
      have hcan := hinv.1 c hc
      unfold pairMatch
      simp only [Bool.or_self, Bool.and_eq_true, beq_iff_eq, not_and]
      intro h1 h2
      omega
    omega
  · calc db.chats.countP (fun c => pairMatch a b c || pairMatch b a c)
        = db.chats.countP (pairMatch b a) := by
          apply List.countP_congr
          intro c hc
          have hcan := hinv.1 c hc
          unfold pairMatch
          simp only [Bool.or_eq_true, Bool.and_eq_true, beq_iff_eq]
          constructor
          · rintro (⟨rfl, rfl⟩ | h)
            · omega
            · exact h
          · intro h
            exact Or.inr h
      _ ≤ 1 := hinv.2 b a

/-- initializeChatAt touches the chats table only through the
constraint-checked insert, so it preserves the invariant of the state it
writes into, whatever state it read from. -/
lemma initializeChatAt_invariant {readDb writeDb : DB} {me other : Nat}
    {freshId : Nat} (hinv : chatsInvariant writeDb) :
    chatsInvariant (initializeChatAt readDb writeDb me other freshId).2 := by
  unfold initializeChatAt
  split
  · exact hinv
  · split
    · exact hinv
    · rcases h : insertChat writeDb (some me)
          ⟨freshId, (sortedPair me other).1, (sortedPair me other).2⟩ with _ | db2
      · simpa [h] using hinv
      · simpa [h] using insertChat_invariant hinv h
    · exact hinv

lemma initializeChat_invariant {db : DB} {me other : Nat} {freshId : Nat}
    (hinv : chatsInvariant db) :
    chatsInvariant (initializeChat db me other freshId).2 :=
  initializeChatAt_invariant hinv

lemma initRace_invariant {db : DB} {a b : Nat} {idA idB : Nat}
    (hinv : chatsInvariant db) :
    chatsInvariant (initRace db a b idA idB).2.2 :=
  initializeChatAt_invariant (initializeChatAt_invariant hinv)

/-- A message insert leaves the chats table unchanged. -/
lemma insertMessage_chats {db db' : DB} {auth : Option Nat} {m : MessageRow}
    (h : insertMessage db auth m = some db') : db'.chats = db.chats := by
  obtain ⟨_, rfl⟩ := insertMessage_eq_some.mp h
  rfl

/-- The chat phase of handleAccept touches the chats table only through
the constraint-checked insert (the welcome message leaves it
unchanged), so it preserves the invariant. -/
lemma acceptChatPhase_invariant {db1 : DB} {auth : Nat} {followerId : Nat}
    {freshChat : Nat} {freshMsg : Nat} (hinv1 : chatsInvariant db1) :
    chatsInvariant (acceptChatPhase db1 auth followerId freshChat freshMsg).2 := by
  unfold acceptChatPhase
  split
  · rename_i c _
    rcases h : insertMessage db1 (some auth)
        ⟨freshMsg, c.id, auth, welcomeText, none⟩ with _ | db2
    · simpa using hinv1
    · have h2 : chatsInvariant db2 := by
        obtain ⟨_, rfl⟩ := insertMessage_eq_some.mp h
        exact hinv1
      simpa using h2
  · rcases h : insertChat db1 (some auth)
        ⟨freshChat, (sortedPair auth followerId).1,
          (sortedPair auth followerId).2⟩ with _ | db2
    · simpa using hinv1
    · have h2 : chatsInvariant db2 := insertChat_invariant hinv1 h
      simp only []
      rcases h3 : insertMessage db2 (some auth)
          ⟨freshMsg, freshChat, auth, welcomeText, none⟩ with _ | db3
      · simpa using h2
      · have h4 : chatsInvariant db3 := by
          obtain ⟨_, rfl⟩ := insertMessage_eq_some.mp h3
          exact h2
        simpa using h4

/-- handleAccept preserves the canonical-order and uniqueness invariant
of the chats table (the status update does not touch it). -/
lemma handleAccept_invariant {db : DB} {auth : Nat} {requestId : Nat}
    {followerId : Nat} {freshChat : Nat} {freshMsg : Nat}
    (hinv : chatsInvariant db) :
    chatsInvariant (handleAccept db auth requestId followerId freshChat freshMsg).2 :=
  acceptChatPhase_invariant hinv

lemma chatsInvariant_empty : chatsInvariant emptyDB :=
  ⟨fun c hc => absurd hc (by simp [emptyDB]), fun a b => by simp [emptyDB]⟩

lemma sortedPair_comm (a b : Nat) : sortedPair a b = sortedPair b a := by
  unfold sortedPair
  split <;> split <;> rename_i h1 h2
  · have : a = b := Nat.le_antisymm h1 h2
    simp [this]
  · rfl
  · rfl
  · omega

lemma sortedPair_lt {a b : Nat} (h : a ≠ b) :
    (sortedPair a b).1 < (sortedPair a b).2 := by
  unfold sortedPair
  split <;> simp <;> omega

lemma sortedPair_left_mem (a b : Nat) :
    (sortedPair a b).1 = a ∨ (sortedPair a b).2 = a := by
  unfold sortedPair
  split <;> simp

/-- Splitting a count along a second predicate. -/
lemma countP_and_split {α : Type} (p q : α → Bool) (l : List α) :
    l.countP p =
      l.countP (fun a => p a && q a) + l.countP (fun a => p a && !q a) := by
  induction l with
  | nil => simp
  | cons x xs ih =>
      simp only [List.countP_cons]
      cases hp : p x <;> cases hq : q x <;> simp [hp, hq] <;> omega

/-- Under the ordered uniqueness constraint the client chat lookup
yields at most one row. -/
lemma chatLookup_cases {db : DB} (huniq : chatsUnique db) (a b : Nat) :
    chatLookup db a b = [] ∨ ∃ c, chatLookup db a b = [c] := by
  have hlen : (chatLookup db a b).length ≤ 1 := by
    unfold chatLookup
    rw [← List.countP_eq_length_filter]
    exact huniq (sortedPair a b).1 (sortedPair a b).2
  rcases hl : chatLookup db a b with _ | ⟨c, rest⟩
  · exact Or.inl rfl
  · rw [hl] at hlen
    simp only [List.length_cons] at hlen
    have : rest = [] := List.eq_nil_of_length_eq_zero (by omega)
    subst this
    exact Or.inr ⟨c, rfl⟩

lemma chatLookup_comm (db : DB) (a b : Nat) :
    chatLookup db a b = chatLookup db b a := by
  unfold chatLookup
  rw [sortedPair_comm]

/-- The follows update leaves the chats table untouched, so the chat
lookup is unchanged. -/
lemma chatLookup_updateFollowStatus (db : DB) (auth rid : Nat)
    (st : FollowStatus) (a b : Nat) :
    chatLookup (updateFollowStatus db auth rid st) a b = chatLookup db a b := rfl

lemma isConnected_comm (db : DB) (a b : Nat) :
    isConnected db a b = isConnected db b a := by
  unfold isConnected
  apply congrArg
  funext f
  cases hst : (f.status == FollowStatus.accepted) <;> simp [Bool.or_comm]

/-! Field-preservation facts: each operation touches only the tables it
writes. -/

lemma insertChat_follows {db db' : DB} {auth : Option Nat} {c : ChatRow}
    (h : insertChat db auth c = some db') : db'.follows = db.follows := by
  obtain ⟨_, rfl⟩ := insertChat_eq_some.mp h
  rfl

lemma insertChat_messages {db db' : DB} {auth : Option Nat} {c : ChatRow}
    (h : insertChat db auth c = some db') : db'.messages = db.messages := by
  obtain ⟨_, rfl⟩ := insertChat_eq_some.mp h
  rfl

lemma insertMessage_follows {db db' : DB} {auth : Option Nat} {m : MessageRow}
    (h : insertMessage db auth m = some db') : db'.follows = db.follows := by
  obtain ⟨_, rfl⟩ := insertMessage_eq_some.mp h
  rfl

lemma insertReaction_follows {db db' : DB} {auth : Option Nat} {r : ReactionRow}
    (h : insertReaction db auth r = some db') : db'.follows = db.follows := by
  obtain ⟨_, rfl⟩ := insertReaction_eq_some.mp h
  rfl

lemma acceptChatPhase_follows (db1 : DB) (auth followerId freshChat freshMsg : Nat) :
    (acceptChatPhase db1 auth followerId freshChat freshMsg).2.follows = db1.follows := by
  unfold acceptChatPhase
  split
  · rename_i c _
    rcases h : insertMessage db1 (some auth)
        ⟨freshMsg, c.id, auth, welcomeText, none⟩ with _ | db2
    · rfl
    · simpa using insertMessage_follows h
  · rcases h : insertChat db1 (some auth)
        ⟨freshChat, (sortedPair auth followerId).1,
          (sortedPair auth followerId).2⟩ with _ | db2
    · rfl
    · simp only []
      rcases h3 : insertMessage db2 (some auth)
          ⟨freshMsg, freshChat, auth, welcomeText, none⟩ with _ | db3
      · simpa using insertChat_follows h
      · have e3 := insertMessage_follows h3
        have e2 := insertChat_follows h
        simpa [e3] using e2

lemma initializeChatAt_follows (readDb writeDb : DB) (me other freshId : Nat) :
    (initializeChatAt readDb writeDb me other freshId).2.follows = writeDb.follows := by
  unfold initializeChatAt
  split
  · rfl
  · split
    · rfl
    · rcases h : insertChat writeDb (some me)
          ⟨freshId, (sortedPair me other).1, (sortedPair me other).2⟩ with _ | db2
      · rfl
      · simpa using insertChat_follows h
    · rfl

lemma uploadPhase_follows (db : DB) (cid : Nat) (selectedFile : Option ChatFile) :
    (uploadPhase db cid selectedFile).follows = db.follows := by
  unfold uploadPhase
  cases selectedFile <;> rfl

lemma handleSendMessage_follows (db : DB) (user : Option Nat)
    (chatId : Option Nat) (newMessage : String) (selectedFile : Option ChatFile)
    (freshId : Nat) :
    (handleSendMessage db user chatId newMessage selectedFile freshId).2.follows =
      db.follows := by
  unfold handleSendMessage
  split
  · rfl
  · split
    · rfl
    · exact uploadPhase_follows db _ selectedFile
    · split
      · rename_i heq
        simpa using (insertMessage_follows heq).trans
          (uploadPhase_follows db _ selectedFile)
      · exact uploadPhase_follows db _ selectedFile

lemma deleteReaction_follows (db : DB) (auth : Option Nat) (rid : Nat) :
    (deleteReaction db auth rid).follows = db.follows := by
  unfold deleteReaction
  cases auth <;> rfl

lemma handleReaction_follows (db : DB) (localRs : List ReactionRow)
    (user : Option Nat) (messageId : Nat) (emoji : String) (freshId : Nat) :
    (handleReaction db localRs user messageId emoji freshId).2.follows =
      db.follows := by
  unfold handleReaction
  split
  · rfl
  · split
    · rename_i u _ r _
      simpa using deleteReaction_follows db (some u) r.id
    · split
      · rename_i heq
        simpa using insertReaction_follows heq
      · rfl

/-! ### Claims -/

/-- C1: For every unordered pair of users, at most one conversation
(chat row) ever exists between them, regardless of which side initiates
first or of concurrent getOrCreateConversation calls from both sides,
and the stored pair is in canonical order with the lower identifier
first (user1_id < user2_id).  Stated as: under the invariant enforced
by the chats table constraints, every stored row is canonically
ordered, each unordered pair has at most one row, the empty database
satisfies the invariant, and every chat-creating operation (sequential
initializeChat, racing initializeChat from both sides, handleAccept)
preserves it. -/
theorem conversation_pair_unique_and_canonical (db : DB)
    (hinv : chatsInvariant db) :
    (∀ a b, (chatsForPair db a b).length ≤ 1) ∧
    (∀ c ∈ db.chats, c.user1_id < c.user2_id) ∧
    chatsInvariant emptyDB ∧
    (∀ me other fid, chatsInvariant (initializeChat db me other fid).2) ∧
    (∀ a b ia ib, chatsInvariant (initRace db a b ia ib).2.2) ∧
    (∀ auth rid follower fc fm,
      chatsInvariant (handleAccept db auth rid follower fc fm).2) :=
  ⟨fun a b => chatsForPair_length_le_one hinv a b,
   hinv.1,
   chatsInvariant_empty,
   fun _ _ _ => initializeChat_invariant hinv,
   fun _ _ _ _ => initRace_invariant hinv,
   fun _ _ _ _ _ => handleAccept_invariant hinv⟩

/-- Witness: the conversation uniqueness theorem applied to the empty
database. -/
theorem conversation_pair_unique_and_canonical_w :
    chatsInvariant emptyDB ∧
    (∀ a b, (chatsForPair emptyDB a b).length ≤ 1) :=
  ⟨chatsInvariant_empty,
   (conversation_pair_unique_and_canonical emptyDB chatsInvariant_empty).1⟩

/-- Fixture: users 1 and 2 are connected by an accepted follow edge and
have no chat yet. -/
def connectedNoChatDB : DB :=
  { emptyDB with follows := [⟨100, 1, 2, FollowStatus.accepted⟩] }

/-- C2 counterexample: in a first-contact race between the two
connected users, the loser of the duplicate-conversation constraint
violation does not re-read the now-existing row: initializeChat throws,
the catch block surfaces the Failed-to-load-chat toast (InitResult.failed),
and no chat id is obtained, refuting that such a race is recovered
locally and never surfaced to the user. -/
theorem race_conflict_surfaced_cx :
    (initRace connectedNoChatDB 1 2 10 11).2.1 = InitResult.failed ∧
    (initRace connectedNoChatDB 1 2 10 11).2.2.chats = [⟨10, 1, 2⟩] := by
  constructor <;> rfl

/-- C2 (amended): in a constraint-violation race the database is
protected (the winner creates the single chat row and the loser's
duplicate insert is refused), but the client does not recover locally:
the losing initializeChat surfaces the failure toast instead of
re-reading, and a duplicate reaction insert (a stale local set that
misses the persisted triple) surfaces the Failed-to-add-reaction toast
instead of being treated as already applied. -/
theorem race_conflict_surfaced (db : DB) (a b ia ib : Nat)
    (hconn : isConnected db a b = true)
    (hnochat : chatLookup db a b = [])
    (hne : a ≠ b) :
    ((initRace db a b ia ib).1 = InitResult.ok ia ∧
     (initRace db a b ia ib).2.1 = InitResult.failed ∧
     (initRace db a b ia ib).2.2.chats =
       db.chats ++ [⟨ia, (sortedPair a b).1, (sortedPair a b).2⟩]) ∧
    (∀ localRs u mId e fid,
       hasReaction db mId u e = true →
       localRs.find? (fun r => r.user_id == u && r.emoji == e) = none →
       handleReaction db localRs (some u) mId e fid =
         (ReactResult.addFailed, db)) := by
  have hp := sortedPair_lt hne
  have hnopair : ∀ c0 ∈ db.chats,
      ¬(c0.user1_id == (sortedPair a b).1 &&
        c0.user2_id == (sortedPair a b).2) = true := by
    intro c0 hc0
    have h0 : ∀ c ∈ db.chats,
        ¬(c.user1_id == (sortedPair a b).1 &&
          c.user2_id == (sortedPair a b).2) = true := by
      have := hnochat
      unfold chatLookup at this
      exact fun c hc => List.filter_eq_nil_iff.mp this c hc
    exact h0 c0 hc0
  have hokA : chatInsertOk db (some a)
      ⟨ia, (sortedPair a b).1, (sortedPair a b).2⟩ = true := by
    unfold chatInsertOk
    simp only [Bool.and_eq_true, decide_eq_true_eq, List.all_eq_true]
    refine ⟨⟨?_, hp⟩, ?_⟩
    · rcases sortedPair_left_mem a b with h | h <;> simp [h]
    · intro c0 hc0
      simp only [Bool.not_eq_true']
      have := hnopair c0 hc0
      revert this
      cases (c0.user1_id == (sortedPair a b).1 &&
          c0.user2_id == (sortedPair a b).2) <;> simp
  have hinsA : insertChat db (some a)
      ⟨ia, (sortedPair a b).1, (sortedPair a b).2⟩ =
      some { db with chats :=
        db.chats ++ [⟨ia, (sortedPair a b).1, (sortedPair a b).2⟩] } :=
    insertChat_eq_some.mpr ⟨hokA, rfl⟩
  have hA : initializeChatAt db db a b ia =
      (InitResult.ok ia,
       { db with chats :=
          db.chats ++ [⟨ia, (sortedPair a b).1, (sortedPair a b).2⟩] }) := by
    unfold initializeChatAt
    simp [hconn, hnochat, hinsA]
  have hconnB : isConnected db b a = true := by
    rw [isConnected_comm]; exact hconn
  have hnochatB : chatLookup db b a = [] := by
    rw [← chatLookup_comm]; exact hnochat
  have hokB : chatInsertOk
      { db with chats :=
         db.chats ++ [⟨ia, (sortedPair a b).1, (sortedPair a b).2⟩] }
      (some b) ⟨ib, (sortedPair b a).1, (sortedPair b a).2⟩ = false := by
    unfold chatInsertOk
    rw [sortedPair_comm b a]
    simp [List.all_append]
  have hinsB : insertChat
      { db with chats :=
         db.chats ++ [⟨ia, (sortedPair a b).1, (sortedPair a b).2⟩] }
      (some b) ⟨ib, (sortedPair b a).1, (sortedPair b a).2⟩ = none := by
    unfold insertChat
    rw [hokB]
    rfl
  have hB : initializeChatAt db
      { db with chats :=
         db.chats ++ [⟨ia, (sortedPair a b).1, (sortedPair a b).2⟩] }
      b a ib =
      (InitResult.failed,
       { db with chats :=
          db.chats ++ [⟨ia, (sortedPair a b).1, (sortedPair a b).2⟩] }) := by
    unfold initializeChatAt
    simp [hconnB, hnochatB, hinsB]
  constructor
  · unfold initRace
    simp [hA, hB]
  · intro localRs u mId e fid hhas hfind
    unfold hasReaction at hhas
    rw [List.any_eq_true] at hhas
    obtain ⟨r0, hr0mem, hr0⟩ := hhas
    have hok : reactionInsertOk db (some u) ⟨fid, mId, u, e⟩ = false := by
      unfold reactionInsertOk
      cases hall : (db.reactions.all fun x =>
          !(x.message_id == mId && x.user_id == u && x.emoji == e)) with
      | false => simp [hall]
      | true =>
          exfalso
          rw [List.all_eq_true] at hall
          have h1 := hall r0 hr0mem
          unfold tripleMatch at hr0
          rw [Bool.not_eq_true'] at h1
          rw [h1] at hr0
          exact Bool.false_ne_true hr0
    have hins : insertReaction db (some u) ⟨fid, mId, u, e⟩ = none := by
      unfold insertReaction
      rw [hok]
      rfl
    unfold handleReaction
    simp [hfind, hins]

/-- Witness: the amended race theorem applied to the concrete fixture
of two connected users with no chat. -/
theorem race_conflict_surfaced_w :
    isConnected connectedNoChatDB 1 2 = true ∧
    chatLookup connectedNoChatDB 1 2 = [] ∧
    (initRace connectedNoChatDB 1 2 10 11).1 = InitResult.ok 10 :=
  ⟨by decide, by decide,
   ((race_conflict_surfaced connectedNoChatDB 1 2 10 11 (by decide) (by decide)
      (by decide)).1).1⟩

/-! ### Follow-edge transition machinery (C7, C8) -/

/-- No edge that has left pending (accepted or rejected) is ever put
back to pending by the operation taking db to db2: any surviving row
with the same primary key keeps a non-pending status. -/
def noBackToPending (db db2 : DB) : Prop :=
  ∀ f ∈ db.follows, f.status ≠ FollowStatus.pending →
    ∀ g ∈ db2.follows, g.id = f.id → g.status ≠ FollowStatus.pending

lemma noBackToPending_of_follows_eq {db db2 : DB} (hids : followIdsUnique db)
    (h : db2.follows = db.follows) : noBackToPending db db2 := by
  intro f hf hfs g hg hid
  rw [h] at hg
  have heq := hids g hg f hf hid
  rw [heq]
  exact hfs

lemma noBackToPending_congr {db db1 db2 : DB} (h : db2.follows = db1.follows)
    (hn : noBackToPending db db1) : noBackToPending db db2 := by
  intro f hf hfs g hg hid
  rw [h] at hg
  exact hn f hf hfs g hg hid

/-- The RLS-filtered status update to a non-pending status never
produces a pending row from a non-pending one. -/
lemma updateFollowStatus_noBack {db : DB} (hids : followIdsUnique db)
    (a r : Nat) (st : FollowStatus) (hst : st ≠ FollowStatus.pending) :
    noBackToPending db (updateFollowStatus db a r st) := by
  intro f hf hfs g hg hid
  unfold updateFollowStatus at hg
  simp only [List.mem_map] at hg
  obtain ⟨f0, hf0, hgeq⟩ := hg
  by_cases hcond : (f0.id == r && f0.following_id == a) = true
  · rw [if_pos hcond] at hgeq
    rw [← hgeq]
    exact hst
  · rw [if_neg hcond] at hgeq
    subst hgeq
    have heq := hids f0 hf0 f hf hid
    rw [heq]
    exact hfs

/-- handleFollow inserts only a fresh-id row, so it cannot revive an
existing edge. -/
lemma handleFollow_noBack {db : DB} (hids : followIdsUnique db)
    (u target fid : Nat) (hfresh : ∀ f ∈ db.follows, f.id ≠ fid) :
    noBackToPending db (handleFollow db u target fid).2 := by
  unfold handleFollow
  rcases h : insertFollow db (some u) ⟨fid, u, target, FollowStatus.pending⟩ with _ | db2
  · simp only []
    exact noBackToPending_of_follows_eq hids rfl
  · simp only []
    obtain ⟨_, rfl⟩ := insertFollow_eq_some.mp h
    intro f hf hfs g hg hid
    simp only [List.mem_append, List.mem_singleton] at hg
    rcases hg with hg | hg
    · have heq := hids g hg f hf hid
      rw [heq]
      exact hfs
    · subst hg
      exact absurd hid.symm (by simpa using hfresh f hf)

/-- The followee-performed status update rewrites the matched pending
edge to the new status. -/
lemma updateFollowStatus_sets {db : DB} {rid follower followee : Nat}
    {st0 : FollowStatus} (st : FollowStatus)
    (hedge : FollowRow.mk rid follower followee st0 ∈ db.follows) :
    FollowRow.mk rid follower followee st ∈
      (updateFollowStatus db followee rid st).follows := by
  unfold updateFollowStatus
  have h := List.mem_map_of_mem
    (fun f => if f.id == rid && f.following_id == followee then
        { f with status := st }
      else f) hedge
  simpa using h

/-- A status update attempted by anyone other than the followee leaves
the edge untouched (the RLS USING filter matches no row). -/
lemma updateFollowStatus_other {db : DB} {rid follower followee u : Nat}
    {st0 : FollowStatus} (st : FollowStatus) (hne : u ≠ followee)
    (hedge : FollowRow.mk rid follower followee st0 ∈ db.follows) :
    FollowRow.mk rid follower followee st0 ∈
      (updateFollowStatus db u rid st).follows := by
  unfold updateFollowStatus
  have h := List.mem_map_of_mem
    (fun f => if f.id == rid && f.following_id == u then
        { f with status := st }
      else f) hedge
  have hcond : (followee == u) = false := by
    rw [beq_eq_false_iff_ne]
    exact fun he => hne he.symm
  simpa [hcond] using h

/-- C7: FollowRow status transitions pending→accepted (via handleAccept
by the followee) and pending→rejected (via handleReject by the
followee) are reachable, and no modelled operation ever moves an edge
that is accepted or rejected back to pending. -/
theorem follow_status_transitions (db : DB)
    (rid follower followee fc fm : Nat)
    (hids : followIdsUnique db)
    (hedge : FollowRow.mk rid follower followee FollowStatus.pending ∈ db.follows) :
    (FollowRow.mk rid follower followee FollowStatus.accepted ∈
      (handleAccept db followee rid follower fc fm).2.follows) ∧
    (FollowRow.mk rid follower followee FollowStatus.rejected ∈
      (handleReject db followee rid).follows) ∧
    (∀ u target fid, (∀ f ∈ db.follows, f.id ≠ fid) →
      noBackToPending db (handleFollow db u target fid).2) ∧
    (∀ u r f2 f3 f4, noBackToPending db (handleAccept db u r f2 f3 f4).2) ∧
    (∀ u r, noBackToPending db (handleReject db u r)) ∧
    (∀ me other fid, noBackToPending db (initializeChat db me other fid).2) ∧
    (∀ user chatId txt file fid,
      noBackToPending db (handleSendMessage db user chatId txt file fid).2) ∧
    (∀ localRs user mId e fid,
      noBackToPending db (handleReaction db localRs user mId e fid).2) := by
  refine ⟨?_, ?_, ?_, ?_, ?_, ?_, ?_, ?_⟩
  · unfold handleAccept
    rw [acceptChatPhase_follows]
    exact updateFollowStatus_sets FollowStatus.accepted hedge
  · exact updateFollowStatus_sets FollowStatus.rejected hedge
  · intro u target fid hfresh
    exact handleFollow_noBack hids u target fid hfresh
  · intro u r f2 f3 f4
    refine noBackToPending_congr ?_
      (updateFollowStatus_noBack hids u r FollowStatus.accepted (by simp))
    unfold handleAccept
    rw [acceptChatPhase_follows]
  · intro u r
    exact updateFollowStatus_noBack hids u r FollowStatus.rejected (by simp)
  · intro me other fid
    exact noBackToPending_of_follows_eq hids
      (initializeChatAt_follows db db me other fid)
  · intro user chatId txt file fid
    exact noBackToPending_of_follows_eq hids
      (handleSendMessage_follows db user chatId txt file fid)
  · intro localRs user mId e fid
    exact noBackToPending_of_follows_eq hids
      (handleReaction_follows db localRs user mId e fid)

/-- Fixture: one pending follow request from user 1 to user 2. -/
def pendingEdgeDB : DB :=
  { emptyDB with follows := [⟨100, 1, 2, FollowStatus.pending⟩] }

/-- Witness: the transition theorem applied to the pending-edge
fixture; user 2 (the followee) accepting makes the accepted edge real. -/
theorem follow_status_transitions_w :
    followIdsUnique pendingEdgeDB ∧
    FollowRow.mk 100 1 2 FollowStatus.pending ∈ pendingEdgeDB.follows ∧
    FollowRow.mk 100 1 2 FollowStatus.accepted ∈
      (handleAccept pendingEdgeDB 2 100 1 200 300).2.follows :=
  ⟨by unfold followIdsUnique; decide, by decide,
   (follow_status_transitions pendingEdgeDB 100 1 2 200 300
      (by unfold followIdsUnique; decide) (by decide)).1⟩

/-- C8: requestFollow (handleFollow on the Discover page) fails when a
follow edge already exists for the ordered (follower, followee) pair,
whatever its status (the UNIQUE constraint fires and the insert error
is surfaced, leaving the database unchanged), and otherwise creates
exactly one new edge with status pending. -/
theorem requestFollow_idempotency_guard (db : DB) (a b fid : Nat) :
    ((∃ f ∈ db.follows, f.follower_id = a ∧ f.following_id = b) →
      handleFollow db a b fid = (FollowReqResult.failed, db)) ∧
    ((∀ f ∈ db.follows, ¬(f.follower_id = a ∧ f.following_id = b)) →
      handleFollow db a b fid =
        (FollowReqResult.ok,
          { db with follows :=
              db.follows ++ [⟨fid, a, b, FollowStatus.pending⟩] })) := by
  constructor
  · rintro ⟨f, hf, hfa, hfb⟩
    have hok : followInsertOk db (some a) ⟨fid, a, b, FollowStatus.pending⟩ = false := by
      unfold followInsertOk
      cases hall : (db.follows.all fun f0 =>
          !(f0.follower_id == a && f0.following_id == b)) with
      | false => simp [hall]
      | true =>
          exfalso
          rw [List.all_eq_true] at hall
          have h1 := hall f hf
          simp [hfa, hfb] at h1
    have hins : insertFollow db (some a) ⟨fid, a, b, FollowStatus.pending⟩ = none := by
      unfold insertFollow
      rw [hok]
      rfl
    unfold handleFollow
    simp [hins]
  · intro hnone
    have hok : followInsertOk db (some a) ⟨fid, a, b, FollowStatus.pending⟩ = true := by
      unfold followInsertOk
      simp only [Bool.and_eq_true, List.all_eq_true, beq_self_eq_true, true_and]
      intro f0 hf0
      have h1 := hnone f0 hf0
      simp only [Bool.not_eq_true']
      cases h2 : f0.follower_id == a <;> cases h3 : f0.following_id == b <;>
        simp_all
    have hins : insertFollow db (some a) ⟨fid, a, b, FollowStatus.pending⟩ =
        some { db with follows :=
          db.follows ++ [⟨fid, a, b, FollowStatus.pending⟩] } :=
      insertFollow_eq_some.mpr ⟨hok, rfl⟩
    unfold handleFollow
    simp [hins]

/-- Witness: a repeat request over a rejected edge fails without a new
row, and a first request creates the single pending edge. -/
theorem requestFollow_idempotency_guard_w :
    (∃ f ∈ ({ emptyDB with
        follows := [⟨7, 1, 2, FollowStatus.rejected⟩] } : DB).follows,
      f.follower_id = 1 ∧ f.following_id = 2) ∧
    handleFollow { emptyDB with
        follows := [⟨7, 1, 2, FollowStatus.rejected⟩] } 1 2 8 =
      (FollowReqResult.failed,
       { emptyDB with follows := [⟨7, 1, 2, FollowStatus.rejected⟩] }) ∧
    handleFollow emptyDB 1 2 8 =
      (FollowReqResult.ok,
       { emptyDB with follows := [⟨8, 1, 2, FollowStatus.pending⟩] }) :=
  ⟨⟨⟨7, 1, 2, FollowStatus.rejected⟩, by decide, rfl, rfl⟩,
   (requestFollow_idempotency_guard
      { emptyDB with follows := [⟨7, 1, 2, FollowStatus.rejected⟩] } 1 2 8).1
      ⟨⟨7, 1, 2, FollowStatus.rejected⟩, by decide, rfl, rfl⟩,
   (requestFollow_idempotency_guard emptyDB 1 2 8).2 (by decide)⟩

/-- The message delivered twice in the C5 counterexample. -/
def dupEventMsg : MessageRow := ⟨1, 200, 1, "hello", none⟩

/-- C5 counterexample: the realtime INSERT handler appends the payload
to the local view unconditionally, so delivering a message whose id is
already present yields two entries with that id instead of being
deduplicated. -/
theorem feed_insert_duplicate_cx :
    (applyInsertEvent [dupEventMsg] dupEventMsg).countP
      (fun x => x.id == dupEventMsg.id) = 2 := by decide

/-- C5 (amended): the subscriber applies an insert event by appending
it to the local ordered view with no deduplication on message id; if
the id is already present (bulk-load racing with the live feed), the
view then holds at least two entries with that id. -/
theorem feed_insert_appends_always (cur : List MessageRow) (m : MessageRow)
    (h : ∃ x ∈ cur, x.id = m.id) :
    2 ≤ (applyInsertEvent cur m).countP (fun x => x.id == m.id) := by
  unfold applyInsertEvent
  rw [List.countP_append]
  obtain ⟨x, hx, hid⟩ := h
  have h1 : 0 < cur.countP (fun y => y.id == m.id) := by
    rw [List.countP_pos_iff]
    exact ⟨x, hx, by simp [hid]⟩
  have h2 : ([m].countP fun y => y.id == m.id) = 1 := by simp
  omega

/-- Witness: the append-no-dedup theorem at the duplicated message. -/
theorem feed_insert_appends_always_w :
    (∃ x ∈ [dupEventMsg], x.id = dupEventMsg.id) ∧
    2 ≤ (applyInsertEvent [dupEventMsg] dupEventMsg).countP
        (fun x => x.id == dupEventMsg.id) :=
  ⟨⟨dupEventMsg, by simp, rfl⟩,
   feed_insert_appends_always [dupEventMsg] dupEventMsg
     ⟨dupEventMsg, by simp, rfl⟩⟩

/-! ### The write-time send gate (C4) -/

/-- Reachable fixture for the C4 counterexample: user 1 requests to
follow user 2, user 2 accepts (creating the chat and welcome message),
then user 2 rejects the same edge, leaving the pair unconnected while
the chat row persists. -/
def c4db : DB :=
  handleReject (handleAccept (handleFollow emptyDB 1 2 100).2 2 100 1 200 300).2 2 100

/-- C4 counterexample: the write-time check on message inserts is chat
membership, not the isConnected predicate of the relationship gate: in
the reachable state where the accepted edge was later rejected, user 1
is no longer connected to user 2, yet a send by user 1 into their
persisting chat is accepted and the row is written, where the claim
requires rejection. -/
theorem send_gate_not_isConnected_cx :
    isConnected c4db 1 2 = false ∧
    (⟨200, 1, 2⟩ : ChatRow) ∈ c4db.chats ∧
    insertMessage c4db (some 1) ⟨301, 200, 1, "hello", none⟩ =
      some { c4db with messages := c4db.messages ++ [⟨301, 200, 1, "hello", none⟩] } := by
  refine ⟨by decide, by decide, ?_⟩
  rfl

/-- C4 (amended): a message insert succeeds exactly when the sender is
authenticated, is the row's sender, and is one of the two members of
the chat row (the RLS WITH CHECK of the messages table); on success the
single row is appended, and on rejection nothing is written.  The
predicate is chat membership, not isConnected. -/
theorem send_write_gate_participation (db : DB) (auth : Option Nat)
    (m : MessageRow) :
    ((insertMessage db auth m).isSome ↔
      ∃ u, auth = some u ∧ m.sender_id = u ∧
        ∃ c ∈ db.chats, c.id = m.chat_id ∧
          (c.user1_id = u ∨ c.user2_id = u)) ∧
    (insertMessage db auth m = none ∨
      insertMessage db auth m =
        some { db with messages := db.messages ++ [m] }) := by
  constructor
  · have hsome : (insertMessage db auth m).isSome = messageInsertOk db auth m := by
      unfold insertMessage
      split <;> simp_all
    rw [hsome]
    unfold messageInsertOk
    cases auth with
    | none => simp
    | some u =>
        simp only [Bool.and_eq_true, List.any_eq_true, beq_iff_eq,
          Bool.or_eq_true, Option.some.injEq]
        constructor
        · rintro ⟨hs, c, hc, hcid, hmem⟩
          exact ⟨u, rfl, hs, c, hc, hcid, hmem⟩
        · rintro ⟨u2, hu2, hs, c, hc, hcid, hmem⟩
          cases hu2
          exact ⟨hs, c, hc, hcid, hmem⟩
  · unfold insertMessage
    split
    · right
      rfl
    · left
      rfl

/-! ### Send validation (C9) -/

lemma uploadPhase_messages (db : DB) (cid : Nat) (sf : Option ChatFile) :
    (uploadPhase db cid sf).messages = db.messages := by
  unfold uploadPhase
  cases sf <;> rfl

/-- Reduction of handleSendMessage to its insert phase once the
guard has passed (authenticated user, loaded chat id). -/
lemma handleSendMessage_insert_phase (db : DB) (u cid : Nat) (txt : String)
    (file : Option ChatFile) (mid : Nat)
    (h : (jsTrim txt == "" && file.isNone) = false) :
    handleSendMessage db (some u) (some cid) txt file mid =
      (match insertMessage (uploadPhase db cid file) (some u)
          ⟨mid, cid, u, sendContent txt file, file.map (fun f => f.name)⟩ with
       | some db2 => (SendResult.sent, db2)
       | none => (SendResult.failed, uploadPhase db cid file)) := by
  unfold handleSendMessage
  rw [if_neg (by simp [h])]

/-- C9: a send requires at least one of text and media: with empty
trimmed text and no selected file the handler returns before any
network call (no upload, no insert, database untouched); a file sent
with no caption stores the file name as content; and every message row
appended by handleSendMessage has non-empty content, given that
selected files carry their (non-empty) original browser file name. -/
theorem send_content_validation (db : DB) (u cid : Nat)
    (txt : String) (file : Option ChatFile) (mid : Nat)
    (hname : ∀ g, file = some g → g.name ≠ "") :
    (jsTrim txt = "" → file = none →
      ∀ user chatId,
        handleSendMessage db user chatId txt file mid = (SendResult.noop, db)) ∧
    (jsTrim txt = "" →
      ∀ g db2, file = some g →
        handleSendMessage db (some u) (some cid) txt file mid =
          (SendResult.sent, db2) →
        db2.messages = db.messages ++ [⟨mid, cid, u, g.name, some g.name⟩]) ∧
    (∀ r db2 m2,
      handleSendMessage db (some u) (some cid) txt file mid = (r, db2) →
      db2.messages = db.messages ++ [m2] → m2.content ≠ "") := by
  refine ⟨?_, ?_, ?_⟩
  · intro ht hf user chatId
    subst hf
    unfold handleSendMessage
    rw [if_pos (by simp [ht])]
  · intro ht g db2 hg hsend
    subst hg
    rw [handleSendMessage_insert_phase db u cid txt (some g) mid (by simp)]
      at hsend
    split at hsend
    · rename_i db2' heq
      obtain ⟨hok, hdb⟩ := insertMessage_eq_some.mp heq
      cases hsend
      rw [hdb]
      have hcontent : sendContent txt (some g) = g.name := by
        unfold sendContent
        rw [if_pos (by simp [ht])]
      simp [uploadPhase_messages, hcontent]
    · simp at hsend
  · intro r db2 m2 hsend happ
    by_cases hg : ((jsTrim txt == "" && file.isNone) ||
        (some cid : Option Nat).isNone) = true
    · unfold handleSendMessage at hsend
      rw [if_pos hg] at hsend
      cases hsend
      have hlen := congrArg List.length happ
      simp at hlen
    · have hgf : (jsTrim txt == "" && file.isNone) = false := by
        revert hg
        cases (jsTrim txt == "" && file.isNone) <;> simp
      rw [handleSendMessage_insert_phase db u cid txt file mid hgf] at hsend
      split at hsend
      · rename_i db2' heq
        obtain ⟨hok, hdb⟩ := insertMessage_eq_some.mp heq
        cases hsend
        rw [hdb] at happ
        simp only [uploadPhase_messages] at happ
        have hm2 : m2 = (⟨mid, cid, u, sendContent txt file,
            file.map (fun f => f.name)⟩ : MessageRow) := by
          have hsingle := List.append_cancel_left happ
          simpa using hsingle.symm
        rw [hm2]
        show sendContent txt file ≠ ""
        unfold sendContent
        by_cases htr : (jsTrim txt == "") = true
        · rw [if_pos htr]
          have hfile : file.isNone = false := by
            revert hgf
            rw [htr]
            cases file <;> simp
          obtain ⟨g, rfl⟩ : ∃ g, file = some g := by
            cases file with
            | none => simp at hfile
            | some g => exact ⟨g, rfl⟩
          exact hname g rfl
        · rw [if_neg htr]
          simpa using htr
      · cases hsend
        rw [uploadPhase_messages] at happ
        have hlen := congrArg List.length happ
        simp at hlen

/-- Witness: a whitespace-only send with no file is a local no-op. -/
theorem send_content_validation_w :
    jsTrim "  " = "" ∧
    handleSendMessage c4db (some 1) (some 200) "  " none 400 =
      (SendResult.noop, c4db) :=
  ⟨by decide,
   (send_content_validation c4db 1 200 "  " none 400
      (fun g hg => absurd hg (by simp))).1 (by decide) rfl (some 1) (some 200)⟩

/-! ### The Discover page message gate (C10) -/

/-- C10: the Message action on the Discover page is enabled exactly
when the current user has an outgoing follow edge to the profile with
status accepted; an accepted edge in the opposite direction alone
leaves the action disabled even though the chat screen's isConnected
check accepts an accepted edge in either direction. -/
theorem discover_message_gate (db : DB) (me p eid : Nat)
    (huniq : followsUnique db) :
    (canMessage db me p = true ↔
      ∃ f ∈ db.follows, f.follower_id = me ∧ f.following_id = p ∧
        f.status = FollowStatus.accepted) ∧
    ((∀ f ∈ db.follows, ¬(f.follower_id = me ∧ f.following_id = p)) →
      FollowRow.mk eid p me FollowStatus.accepted ∈ db.follows →
      canMessage db me p = false ∧ isConnected db me p = true) := by
  constructor
  · constructor
    · intro hcm
      unfold canMessage followStatusUI at hcm
      rcases hl : (db.follows.filter fun f =>
          f.follower_id == me && f.following_id == p).getLast? with _ | f
      · rw [hl] at hcm
        simp [ofFollowStatus] at hcm
      · rw [hl] at hcm
        simp only [beq_iff_eq] at hcm
        have hacc : ofFollowStatus f.status = UiStatus.accepted := hcm
        have hfmem := List.mem_of_getLast?_eq_some hl
        rw [List.mem_filter] at hfmem
        obtain ⟨hfin, hpred⟩ := hfmem
        simp only [Bool.and_eq_true, beq_iff_eq] at hpred
        refine ⟨f, hfin, hpred.1, hpred.2, ?_⟩
        cases hst : f.status with
        | pending => rw [hst] at hacc; simp [ofFollowStatus] at hacc
        | accepted => rfl
        | rejected => rw [hst] at hacc; simp [ofFollowStatus] at hacc
    · rintro ⟨f, hf, h1, h2, h3⟩
      have hmemf : f ∈ db.follows.filter fun x =>
          x.follower_id == me && x.following_id == p := by
        rw [List.mem_filter]
        exact ⟨hf, by simp [h1, h2]⟩
      have hlen : (db.follows.filter fun x =>
          x.follower_id == me && x.following_id == p).length ≤ 1 := by
        rw [← List.countP_eq_length_filter]
        exact huniq me p
      have hone : (db.follows.filter fun x =>
          x.follower_id == me && x.following_id == p).length = 1 :=
        Nat.le_antisymm hlen (List.length_pos_of_mem hmemf)
      obtain ⟨x, hx⟩ := List.length_eq_one.mp hone
      rw [hx] at hmemf
      rw [List.mem_singleton] at hmemf
      subst hmemf
      unfold canMessage followStatusUI
      rw [hx]
      simp [h3, ofFollowStatus]
  · intro hnone hedge
    constructor
    · unfold canMessage followStatusUI
      have hfe : (db.follows.filter fun f =>
          f.follower_id == me && f.following_id == p) = [] := by
        rw [List.filter_eq_nil_iff]
        intro f hf
        have h0 := hnone f hf
        cases h1 : f.follower_id == me <;> cases h2 : f.following_id == p <;>
          simp_all
      rw [hfe]
      rfl
    · unfold isConnected
      rw [List.any_eq_true]
      exact ⟨⟨eid, p, me, FollowStatus.accepted⟩, hedge, by simp⟩

/-- Fixture: user 2 has an accepted edge towards user 1, and user 1 has
no outgoing edge towards user 2. -/
def incomingOnlyDB : DB :=
  { emptyDB with follows := [⟨5, 2, 1, FollowStatus.accepted⟩] }

/-- Witness: with only the incoming accepted edge, the Discover page
disables the Message button for user 1 while the chat screen would
consider the pair connected. -/
theorem discover_message_gate_w :
    canMessage incomingOnlyDB 1 2 = false ∧
    isConnected incomingOnlyDB 1 2 = true :=
  (discover_message_gate incomingOnlyDB 1 2 5
      (fun a b =>
        Nat.le_trans (List.countP_le_length (followPairMatch a b))
          (by decide))).2
    (by decide) (by decide)

/-! ### Responding to a follow request (C3) -/

/-- C3: responding to a follow request takes effect only for the
followee (any other caller's RLS-filtered update leaves the edge
pending); accepting transitions the edge to accepted, creates the
conversation for the pair when absent and reuses the existing one
otherwise, and inserts exactly one system welcome message into that
conversation. -/
theorem respondToFollow_accept_spec (db : DB)
    (rid follower followee fc fm : Nat)
    (hne : follower ≠ followee)
    (hinv : chatsInvariant db)
    (hedge : FollowRow.mk rid follower followee FollowStatus.pending ∈ db.follows) :
    (∀ u, u ≠ followee →
      FollowRow.mk rid follower followee FollowStatus.pending ∈
        (handleAccept db u rid follower fc fm).2.follows) ∧
    (FollowRow.mk rid follower followee FollowStatus.accepted ∈
      (handleAccept db followee rid follower fc fm).2.follows) ∧
    (∃ cid,
      (handleAccept db followee rid follower fc fm).1 = AcceptResult.ok cid ∧
      (handleAccept db followee rid follower fc fm).2.messages =
        db.messages ++ [⟨fm, cid, followee, welcomeText, none⟩] ∧
      ((chatLookup db followee follower = [] ∧ cid = fc ∧
          (handleAccept db followee rid follower fc fm).2.chats =
            db.chats ++ [⟨fc, (sortedPair followee follower).1,
              (sortedPair followee follower).2⟩]) ∨
       (∃ c, chatLookup db followee follower = [c] ∧ cid = c.id ∧
          (handleAccept db followee rid follower fc fm).2.chats =
            db.chats))) := by
  have hne2 : followee ≠ follower := fun h => hne h.symm
  refine ⟨?_, ?_, ?_⟩
  · intro u hu
    unfold handleAccept
    rw [acceptChatPhase_follows]
    exact updateFollowStatus_other FollowStatus.accepted hu hedge
  · unfold handleAccept
    rw [acceptChatPhase_follows]
    exact updateFollowStatus_sets FollowStatus.accepted hedge
  · rcases chatLookup_cases hinv.2 followee follower with hl | ⟨c, hl⟩
    · -- no chat yet: the sorted pair is inserted, then the welcome message
      have hok : chatInsertOk
          (updateFollowStatus db followee rid FollowStatus.accepted)
          (some followee)
          ⟨fc, (sortedPair followee follower).1,
            (sortedPair followee follower).2⟩ = true := by
        unfold chatInsertOk
        simp only [Bool.and_eq_true, decide_eq_true_eq, List.all_eq_true]
        refine ⟨⟨?_, sortedPair_lt hne2⟩, ?_⟩
        · rcases sortedPair_left_mem followee follower with h | h <;> simp [h]
        · intro c0 hc0
          have hc0db : c0 ∈ db.chats := hc0
          have hempty : ∀ x ∈ db.chats,
              ¬(x.user1_id == (sortedPair followee follower).1 &&
                x.user2_id == (sortedPair followee follower).2) = true := by
            have h0 := hl
            unfold chatLookup at h0
            exact List.filter_eq_nil_iff.mp h0
          have h1 := hempty c0 hc0db
          simp only [Bool.not_eq_true']
          revert h1
          cases (c0.user1_id == (sortedPair followee follower).1 &&
              c0.user2_id == (sortedPair followee follower).2) <;> simp
      have hins : insertChat
          (updateFollowStatus db followee rid FollowStatus.accepted)
          (some followee)
          ⟨fc, (sortedPair followee follower).1,
            (sortedPair followee follower).2⟩ =
          some { updateFollowStatus db followee rid FollowStatus.accepted with
            chats := (updateFollowStatus db followee rid
                FollowStatus.accepted).chats ++
              [⟨fc, (sortedPair followee follower).1,
                (sortedPair followee follower).2⟩] } :=
        insertChat_eq_some.mpr ⟨hok, rfl⟩
      have hmok : messageInsertOk
          { updateFollowStatus db followee rid FollowStatus.accepted with
            chats := (updateFollowStatus db followee rid
                FollowStatus.accepted).chats ++
              [⟨fc, (sortedPair followee follower).1,
                (sortedPair followee follower).2⟩] }
          (some followee) ⟨fm, fc, followee, welcomeText, none⟩ = true := by
        unfold messageInsertOk
        simp only [beq_self_eq_true, Bool.true_and, List.any_append,
          List.any_cons, List.any_nil, Bool.or_eq_true]
        right
        rcases sortedPair_left_mem followee follower with h | h <;> simp [h]
      have hmins := insertMessage_eq_some.mpr (And.intro hmok rfl)
      have hrun : handleAccept db followee rid follower fc fm =
          (AcceptResult.ok fc,
           { updateFollowStatus db followee rid FollowStatus.accepted with
              chats := (updateFollowStatus db followee rid
                  FollowStatus.accepted).chats ++
                [⟨fc, (sortedPair followee follower).1,
                  (sortedPair followee follower).2⟩],
              messages := (updateFollowStatus db followee rid
                  FollowStatus.accepted).messages ++
                [⟨fm, fc, followee, welcomeText, none⟩] }) := by
        unfold handleAccept acceptChatPhase
        rw [chatLookup_updateFollowStatus, hl]
        simp only []
        rw [hins]
        simp only []
        rw [hmins]
      refine ⟨fc, ?_, ?_, Or.inl ⟨hl, rfl, ?_⟩⟩
      · rw [hrun]
      · rw [hrun]
        rfl
      · rw [hrun]
        rfl
    · -- existing chat: it is reused and only the welcome message is added
      have hcmem : c ∈ db.chats ∧
          (c.user1_id == (sortedPair followee follower).1 &&
           c.user2_id == (sortedPair followee follower).2) = true := by
        have h0 : c ∈ chatLookup db followee follower := by
          rw [hl]
          exact List.mem_singleton_self c
        unfold chatLookup at h0
        rw [List.mem_filter] at h0
        exact h0
      have hc12 : c.user1_id = (sortedPair followee follower).1 ∧
          c.user2_id = (sortedPair followee follower).2 := by
        have h0 := hcmem.2
        simp only [Bool.and_eq_true, beq_iff_eq] at h0
        exact h0
      have hmok : messageInsertOk
          (updateFollowStatus db followee rid FollowStatus.accepted)
          (some followee) ⟨fm, c.id, followee, welcomeText, none⟩ = true := by
        unfold messageInsertOk
        simp only [beq_self_eq_true, Bool.true_and, List.any_eq_true]
        refine ⟨c, hcmem.1, ?_⟩
        rcases sortedPair_left_mem followee follower with h | h
        · simp [hc12.1, h]
        · simp [hc12.2, h]
      have hmins := insertMessage_eq_some.mpr (And.intro hmok rfl)
      have hrun : handleAccept db followee rid follower fc fm =
          (AcceptResult.ok c.id,
           { updateFollowStatus db followee rid FollowStatus.accepted with
              messages := (updateFollowStatus db followee rid
                  FollowStatus.accepted).messages ++
                [⟨fm, c.id, followee, welcomeText, none⟩] }) := by
        unfold handleAccept acceptChatPhase
        rw [chatLookup_updateFollowStatus, hl]
        simp only []
        rw [hmins]
      refine ⟨c.id, ?_, ?_, Or.inr ⟨c, hl, rfl, ?_⟩⟩
      · rw [hrun]
      · rw [hrun]
        rfl
      · rw [hrun]
        rfl

/-- Witness: accepting the pending request of the fixture yields the
accepted edge, the single new chat, and the single welcome message. -/
theorem respondToFollow_accept_spec_w :
    (1 : Nat) ≠ 2 ∧
    FollowRow.mk 100 1 2 FollowStatus.accepted ∈
      (handleAccept pendingEdgeDB 2 100 1 200 300).2.follows :=
  ⟨by decide,
   (respondToFollow_accept_spec pendingEdgeDB 100 1 2 200 300 (by decide)
      ⟨fun c hc => absurd hc (by simp [pendingEdgeDB, emptyDB]),
       fun a b => by simp [pendingEdgeDB, emptyDB]⟩
      (by decide)).2.1⟩

/-! ### Reaction toggle (C6) -/

/-- Two distinct members both satisfying a predicate force a count of
at least two. -/
lemma two_le_countP_of_mem {α : Type} {l : List α} {a b : α}
    (ha : a ∈ l) (hb : b ∈ l) (hne : a ≠ b) {p : α → Bool}
    (hpa : p a = true) (hpb : p b = true) : 2 ≤ l.countP p := by
  induction l with
  | nil => cases ha
  | cons x xs ih =>
      rw [List.countP_cons]
      rcases List.mem_cons.mp ha with rfl | ha2
      · rcases List.mem_cons.mp hb with hb1 | hb2
        · exact absurd hb1.symm hne
        · have h1 : 0 < xs.countP p := List.countP_pos_iff.mpr ⟨b, hb2, hpb⟩
          rw [if_pos hpa]
          omega
      · rcases List.mem_cons.mp hb with hb1 | hb2
        · subst hb1
          have h1 : 0 < xs.countP p := List.countP_pos_iff.mpr ⟨a, ha2, hpa⟩
          rw [if_pos hpb]
          omega
        · have h2 := ih ha2 hb2
          have h3 : (if p x = true then 1 else 0) = 1 ∨
              (if p x = true then 1 else 0) = 0 := by
            split <;> simp
          rcases h3 with h3 | h3 <;> rw [h3] <;> omega

/-- Reduction of handleReaction for an authenticated user. -/
lemma handleReaction_some_eq (db : DB) (localRs : List ReactionRow)
    (u messageId : Nat) (emoji : String) (freshId : Nat) :
    handleReaction db localRs (some u) messageId emoji freshId =
      match localRs.find? (fun r => r.user_id == u && r.emoji == emoji) with
      | some existing =>
          (ReactResult.removed, deleteReaction db (some u) existing.id)
      | none =>
          match insertReaction db (some u) ⟨freshId, messageId, u, emoji⟩ with
          | some db2 => (ReactResult.added, db2)
          | none => (ReactResult.addFailed, db) := rfl

/-- When the locally known set is in sync with the database and the
triple is present, the local lookup of handleReaction finds a database
row carrying exactly that triple. -/
lemma find_inSync_present {db : DB} {mId u : Nat} {e : String}
    (h : hasReaction db mId u e = true) :
    ∃ r, (reactionsFor db mId).find?
        (fun r => r.user_id == u && r.emoji == e) = some r ∧
      r ∈ db.reactions ∧ tripleMatch mId u e r = true := by
  have hsome : ((reactionsFor db mId).find? fun r =>
      r.user_id == u && r.emoji == e).isSome := by
    rw [List.find?_isSome]
    unfold hasReaction at h
    rw [List.any_eq_true] at h
    obtain ⟨r, hr, ht⟩ := h
    unfold tripleMatch at ht
    simp only [Bool.and_eq_true] at ht
    refine ⟨r, ?_, by simp [ht.1.2, ht.2]⟩
    unfold reactionsFor
    rw [List.mem_filter]
    exact ⟨hr, ht.1.1⟩
  rcases hf : (reactionsFor db mId).find?
      (fun r => r.user_id == u && r.emoji == e) with _ | r
  · rw [hf] at hsome
    simp at hsome
  · have hrmem := List.mem_of_find?_eq_some hf
    have hrpred := List.find?_some hf
    unfold reactionsFor at hrmem
    rw [List.mem_filter] at hrmem
    refine ⟨r, hf, hrmem.1, ?_⟩
    unfold tripleMatch
    simp only [Bool.and_eq_true] at hrpred ⊢
    exact ⟨⟨hrmem.2, hrpred.1⟩, hrpred.2⟩

/-- When the triple is absent from the database, the in-sync local
lookup finds nothing. -/
lemma find_inSync_absent {db : DB} {mId u : Nat} {e : String}
    (h : hasReaction db mId u e = false) :
    (reactionsFor db mId).find?
      (fun r => r.user_id == u && r.emoji == e) = none := by
  rw [List.find?_eq_none]
  intro r hr hp
  unfold reactionsFor at hr
  rw [List.mem_filter] at hr
  unfold hasReaction at h
  rw [List.any_eq_false] at h
  apply h r hr.1
  unfold tripleMatch
  simp only [Bool.and_eq_true] at hp ⊢
  exact ⟨⟨hr.2, hp.1⟩, hp.2⟩

/-- Absence of the triple makes the unique-constraint check of the
reaction insert pass. -/
lemma reaction_all_check_of_absent {db : DB} {mId u : Nat} {e : String}
    (h : hasReaction db mId u e = false) :
    (db.reactions.all fun r0 =>
      !(r0.message_id == mId && r0.user_id == u && r0.emoji == e)) = true := by
  rw [List.all_eq_true]
  intro r0 hr0
  unfold hasReaction at h
  rw [List.any_eq_false] at h
  have h0 := h r0 hr0
  unfold tripleMatch at h0
  cases hb : (r0.message_id == mId && r0.user_id == u && r0.emoji == e)
  · simp
  · exact absurd hb h0

/-- Toggling an absent triple inserts exactly the new reaction row. -/
lemma handleReaction_add_eq {db : DB} {u mId f : Nat} {e : String}
    (htarget : reactionTargetOk db u mId = true)
    (h : hasReaction db mId u e = false) :
    handleReaction db (reactionsFor db mId) (some u) mId e f =
      (ReactResult.added,
       { db with reactions := db.reactions ++ [⟨f, mId, u, e⟩] }) := by
  have hok : reactionInsertOk db (some u) ⟨f, mId, u, e⟩ = true := by
    unfold reactionInsertOk
    simp only [beq_self_eq_true, Bool.true_and]
    rw [htarget]
    simpa using reaction_all_check_of_absent h
  have hins : insertReaction db (some u) ⟨f, mId, u, e⟩ =
      some { db with reactions := db.reactions ++ [⟨f, mId, u, e⟩] } :=
    insertReaction_eq_some.mpr ⟨hok, rfl⟩
  rw [handleReaction_some_eq, find_inSync_absent h]
  simp only []
  rw [hins]

/-- Toggling a present triple removes it: the found local row is the
unique database row with the triple, and its deletion empties the
triple. -/
lemma handleReaction_remove_spec {db : DB} {u mId f : Nat} {e : String}
    (hu : reactionsUnique db) (h : hasReaction db mId u e = true) :
    (handleReaction db (reactionsFor db mId) (some u) mId e f).1 =
      ReactResult.removed ∧
    hasReaction
      (handleReaction db (reactionsFor db mId) (some u) mId e f).2
      mId u e = false := by
  obtain ⟨r, hfind, hrmem, hrtriple⟩ := find_inSync_present h
  have hrun : handleReaction db (reactionsFor db mId) (some u) mId e f =
      (ReactResult.removed, deleteReaction db (some u) r.id) := by
    rw [handleReaction_some_eq, hfind]
  rw [hrun]
  refine ⟨rfl, ?_⟩
  show hasReaction (deleteReaction db (some u) r.id) mId u e = false
  unfold deleteReaction hasReaction
  simp only []
  rw [List.any_eq_false]
  intro x hx hxtr
  rw [List.mem_filter] at hx
  obtain ⟨hxdb, hxkeep⟩ := hx
  have hxuser : x.user_id = u := by
    unfold tripleMatch at hxtr
    simp only [Bool.and_eq_true, beq_iff_eq] at hxtr
    exact hxtr.1.2
  have hxid : x.id ≠ r.id := by
    intro hid
    rw [Bool.not_eq_true'] at hxkeep
    simp [hid, hxuser] at hxkeep
  have hxner : x ≠ r := fun hxr => hxid (by rw [hxr])
  have h2 := two_le_countP_of_mem hxdb hrmem hxner hxtr hrtriple
  have h1 := hu mId u e
  omega

/-- C6: reaction toggle is its own inverse on an in-sync client: if the
(message, user, emoji) triple exists, toggle deletes it, otherwise
toggle inserts it; toggling twice from the empty state restores the
reaction table exactly; the triple stays unique; and two distinct emoji
from the same user on the same message coexist. -/
theorem reaction_toggle_involution (db : DB) (u mId : Nat) (e1 e2 : String)
    (f1 f2 : Nat)
    (hu : reactionsUnique db)
    (htarget : reactionTargetOk db u mId = true)
    (hfresh : ∀ r ∈ db.reactions, r.id ≠ f1) :
    (hasReaction db mId u e1 = true →
      (handleReaction db (reactionsFor db mId) (some u) mId e1 f1).1 =
        ReactResult.removed ∧
      hasReaction
        (handleReaction db (reactionsFor db mId) (some u) mId e1 f1).2
        mId u e1 = false) ∧
    (hasReaction db mId u e1 = false →
      handleReaction db (reactionsFor db mId) (some u) mId e1 f1 =
        (ReactResult.added,
         { db with reactions := db.reactions ++ [⟨f1, mId, u, e1⟩] })) ∧
    (hasReaction db mId u e1 = false →
      ((handleReaction
          (handleReaction db (reactionsFor db mId) (some u) mId e1 f1).2
          (reactionsFor
            (handleReaction db (reactionsFor db mId) (some u) mId e1 f1).2
            mId)
          (some u) mId e1 f2).2).reactions = db.reactions) ∧
    reactionsUnique
      (handleReaction db (reactionsFor db mId) (some u) mId e1 f1).2 ∧
    (e1 ≠ e2 → hasReaction db mId u e1 = true →
      hasReaction db mId u e2 = false →
      hasReaction
        (handleReaction db (reactionsFor db mId) (some u) mId e2 f2).2
        mId u e1 = true ∧
      hasReaction
        (handleReaction db (reactionsFor db mId) (some u) mId e2 f2).2
        mId u e2 = true) := by
  refine ⟨?_, ?_, ?_, ?_, ?_⟩
  · intro h
    exact handleReaction_remove_spec hu h
  · intro h
    exact handleReaction_add_eq htarget h
  · intro h
    rw [handleReaction_add_eq htarget h]
    simp only []
    have hfor : reactionsFor
        { db with reactions := db.reactions ++ [(⟨f1, mId, u, e1⟩ : ReactionRow)] }
        mId =
        reactionsFor db mId ++ [(⟨f1, mId, u, e1⟩ : ReactionRow)] := by
      unfold reactionsFor
      rw [List.filter_append]
      simp
    have hfind : (reactionsFor
        { db with reactions := db.reactions ++ [(⟨f1, mId, u, e1⟩ : ReactionRow)] }
        mId).find? (fun r => r.user_id == u && r.emoji == e1) =
        some (⟨f1, mId, u, e1⟩ : ReactionRow) := by
      rw [hfor, List.find?_append, find_inSync_absent h]
      simp
    rw [handleReaction_some_eq, hfind]
    show (deleteReaction
        { db with reactions := db.reactions ++ [(⟨f1, mId, u, e1⟩ : ReactionRow)] }
        (some u) f1).reactions = db.reactions
    unfold deleteReaction
    simp only [List.filter_append]
    have hold : db.reactions.filter
        (fun r => !(r.id == f1 && r.user_id == u)) = db.reactions := by
      rw [List.filter_eq_self]
      intro r hr
      have h0 := hfresh r hr
      simp [h0]
    have hnew : List.filter (fun r => !(r.id == f1 && r.user_id == u))
        [(⟨f1, mId, u, e1⟩ : ReactionRow)] = [] := by
      simp
    rw [hold, hnew, List.append_nil]
  · cases h : hasReaction db mId u e1 with
    | true =>
        obtain ⟨r, hfind, hrmem, hrtriple⟩ := find_inSync_present h
        have hrun : handleReaction db (reactionsFor db mId) (some u) mId e1 f1 =
            (ReactResult.removed, deleteReaction db (some u) r.id) := by
          rw [handleReaction_some_eq, hfind]
        rw [hrun]
        intro m2 u2 e3
        show ((deleteReaction db (some u) r.id).reactions.countP
          (tripleMatch m2 u2 e3)) ≤ 1
        unfold deleteReaction
        simp only []
        rw [List.countP_filter]
        calc db.reactions.countP (fun a =>
              tripleMatch m2 u2 e3 a && !(a.id == r.id && a.user_id == u))
            ≤ db.reactions.countP (tripleMatch m2 u2 e3) := by
              apply List.countP_mono_left
              intro x hx hpx
              simp only [Bool.and_eq_true] at hpx
              exact hpx.1
          _ ≤ 1 := hu m2 u2 e3
    | false =>
        rw [handleReaction_add_eq htarget h]
        intro m2 u2 e3
        show (((db.reactions ++ [(⟨f1, mId, u, e1⟩ : ReactionRow)]).countP
          (tripleMatch m2 u2 e3)) ≤ 1)
        rw [List.countP_append]
        cases hb : tripleMatch m2 u2 e3 (⟨f1, mId, u, e1⟩ : ReactionRow) with
        | false =>
            have hz : ([(⟨f1, mId, u, e1⟩ : ReactionRow)].countP
                (tripleMatch m2 u2 e3)) = 0 := by
              simp [hb]
            rw [hz]
            simpa using hu m2 u2 e3
        | true =>
            have heq : m2 = mId ∧ u2 = u ∧ e3 = e1 := by
              unfold tripleMatch at hb
              simp only [Bool.and_eq_true, beq_iff_eq] at hb
              exact ⟨hb.1.1.symm, hb.1.2.symm, hb.2.symm⟩
            obtain ⟨rfl, rfl, rfl⟩ := heq
            have hzero : db.reactions.countP (tripleMatch m2 u2 e3) = 0 := by
              rw [List.countP_eq_zero]
              intro r hr
              unfold hasReaction at h
              rw [List.any_eq_false] at h
              exact h r hr
            rw [hzero]
            simp [hb]
  · intro hne h1 h2
    rw [handleReaction_add_eq htarget h2]
    constructor
    · show hasReaction
        { db with reactions := db.reactions ++ [(⟨f2, mId, u, e2⟩ : ReactionRow)] }
        mId u e1 = true
      unfold hasReaction at h1 ⊢
      simp only [List.any_append]
      rw [h1]
      rfl
    · show hasReaction
        { db with reactions := db.reactions ++ [(⟨f2, mId, u, e2⟩ : ReactionRow)] }
        mId u e2 = true
      unfold hasReaction
      simp only [List.any_append, List.any_cons, List.any_nil]
      have hm : tripleMatch mId u e2 (⟨f2, mId, u, e2⟩ : ReactionRow) = true := by
        unfold tripleMatch
        simp
      rw [hm]
      simp

/-- Fixture for the reaction witness: the accepted pair with their chat
and welcome message (id 300), on which user 1 toggles an emoji. -/
def reactionDB : DB := (handleAccept pendingEdgeDB 2 100 1 200 300).2

/-- Witness: on the concrete fixture, toggling an absent emoji inserts
exactly the one reaction row. -/
theorem reaction_toggle_involution_w :
    reactionTargetOk reactionDB 1 300 = true ∧
    hasReaction reactionDB 300 1 "x" = false ∧
    handleReaction reactionDB (reactionsFor reactionDB 300) (some 1) 300 "x" 7 =
      (ReactResult.added,
       { reactionDB with reactions := reactionDB.reactions ++ [⟨7, 300, 1, "x"⟩] }) :=
  ⟨by decide, by decide,
   (reaction_toggle_involution reactionDB 1 300 "x" "y" 7 8
      (fun a b e => Nat.le_trans
        (List.countP_le_length (tripleMatch a b e)) (by decide))
      (by decide) (by decide)).2.1 (by decide)⟩

end SecureConnect

